import Mathlib

/-!
Shallow embedding of the team-todo backend (Go / ent ORM) handlers and the
JWT token service, together with proofs of the specification claims.

Entities follow the ent schemas (`backend/ent/schema/*.go`); handler
operations are transcribed from `backend/internal/handler/*.go`.  Machine
UUIDs are modelled as `Nat` identifiers, timestamps as `Nat` seconds.
Each stateful handler takes the database value and returns the result
together with the database after the call; an error outcome returns the
input database unchanged (the Go code either fails before any write or
rolls the transaction back).
-/

namespace TeamTodo

/-- Organization-level role (`organizationmember.Role`). -/
inductive Role where
  | owner
  | admin
  | member
deriving DecidableEq, Repr

/-- Project-level permission (`projectmember.Permission`). -/
inductive Permission where
  | edit
  | view
deriving DecidableEq, Repr

/-- Role recorded on an invite (`invite.Role`, values owner/admin/member). -/
inductive InviteRole where
  | owner
  | admin
  | member
deriving DecidableEq, Repr

/-- Typed handler outcome, mirroring the `echo.NewHTTPError` classes used by
the handlers (status code class plus message). -/
inductive Err where
  | unauthorized (msg : String)
  | badRequest (msg : String)
  | forbidden (msg : String)
  | notFound (msg : String)
  | conflict (msg : String)
  | internal (msg : String)
deriving DecidableEq, Repr

/-- `User` row (ent schema `user.go`): last-visited pointers are nillable. -/
structure User where
  id : Nat
  email : String
  displayName : String
  lastOrgID : Option Nat
  lastProjectID : Option Nat
deriving DecidableEq, Repr

/-- `Organization` row. -/
structure Organization where
  id : Nat
  name : String
  slug : String
  createdAt : Nat
deriving DecidableEq, Repr

/-- `OrganizationMember` row: (user, organization) with a role. -/
structure OrgMember where
  userID : Nat
  orgID : Nat
  role : Role
deriving DecidableEq, Repr

/-- `Project` row: belongs to one organization, has a private flag. -/
structure Project where
  id : Nat
  name : String
  organizationID : Nat
  isPrivate : Bool
  createdAt : Nat
deriving DecidableEq, Repr

/-- `ProjectMember` row: (user, project) with a permission. -/
structure ProjectMember where
  userID : Nat
  projectID : Nat
  permission : Permission
deriving DecidableEq, Repr

/-- `Invite` row. `usedAt = none` means unredeemed. -/
structure Invite where
  id : Nat
  token : String
  email : String
  organizationID : Nat
  role : InviteRole
  invitedByID : Nat
  expiresAt : Nat
  usedAt : Option Nat
deriving DecidableEq, Repr

/-- The relational store.  `nextID` models the allocator for fresh row ids
(the Go code uses random UUIDs; freshness is what matters). -/
structure DB where
  users : List User
  orgs : List Organization
  orgMembers : List OrgMember
  projects : List Project
  projectMembers : List ProjectMember
  invites : List Invite
  nextID : Nat
deriving DecidableEq, Repr

/-- String rendering of a role, as `string(membership.Role)`. -/
def roleString : Role → String
  | .owner => "owner"
  | .admin => "admin"
  | .member => "member"

/-- String rendering of a permission, as `string(pm.Permission)`. -/
def permString : Permission → String
  | .edit => "edit"
  | .view => "view"

/-- `Organization.Query().Where(organization.SlugEQ(slug)).Only(ctx)`. -/
def findOrgBySlug (db : DB) (slug : String) : Option Organization :=
  db.orgs.find? (fun o => o.slug == slug)

/-- `OrganizationMember.Query().Where(UserIDEQ, OrganizationIDEQ).Only(ctx)`. -/
def findOrgMember (db : DB) (userID orgID : Nat) : Option OrgMember :=
  db.orgMembers.find? (fun m => m.userID == userID && m.orgID == orgID)

/-- `ProjectMember.Query().Where(UserIDEQ, ProjectIDEQ).Only(ctx)`. -/
def findProjectMember (db : DB) (userID projectID : Nat) : Option ProjectMember :=
  db.projectMembers.find? (fun pm => pm.userID == userID && pm.projectID == projectID)

/-- `Project.Query().Where(IDEQ(projectID), OrganizationIDEQ(orgID)).Only(ctx)`. -/
def findProjectInOrg (db : DB) (projectID orgID : Nat) : Option Project :=
  db.projects.find? (fun p => p.id == projectID && p.organizationID == orgID)

/-- `User.UpdateOneID(uid)` applied on the users table (no-op when the row is
absent, matching the `_, _ =` call sites that ignore the save error). -/
def updateUser (users : List User) (uid : Nat) (f : User → User) : List User :=
  users.map (fun u => if u.id == uid then f u else u)

/-- `OrganizationMember.Query().Where(UserIDEQ, OrganizationIDEQ).Exist(ctx)`. -/
def isOrgMember (db : DB) (userID orgID : Nat) : Bool :=
  db.orgMembers.any (fun m => m.userID == userID && m.orgID == orgID)

/-- `ProjectMember.Query().Where(UserIDEQ, ProjectIDEQ).Exist(ctx)`. -/
def isProjectMember (db : DB) (userID projectID : Nat) : Bool :=
  db.projectMembers.any (fun pm => pm.userID == userID && pm.projectID == projectID)

/-- `HasAdminPermission` (handler/permission.go): owner or admin. -/
def HasAdminPermission (role : Role) : Bool :=
  role == Role.owner || role == Role.admin

/-- `IsOwner` (handler/permission.go). -/
def IsOwner (role : Role) : Bool :=
  role == Role.owner

/-- `OrganizationResponse` (handler/organization.go). -/
structure OrganizationResponse where
  id : Nat
  name : String
  slug : String
  role : String
  createdAt : Nat
deriving DecidableEq, Repr

/-- `ProjectResponse` (handler/project.go). -/
structure ProjectResponse where
  id : Nat
  name : String
  isPrivate : Bool
  organizationID : Nat
  permission : String
  createdAt : Nat
deriving DecidableEq, Repr

/-- `CreateOrganization` (organization.go): rejects a missing field, a taken
slug; otherwise, in one transaction, creates the organization, the owner
membership, the default public "全般" project, and points the creator's
last-visited organization at the new row.  `now` is the creation clock. -/
def createOrganization (db : DB) (userID : Nat) (name slug : String)
    (now : Nat) : Except Err OrganizationResponse × DB :=
  if name == "" || slug == "" then
    (.error (.badRequest "validation failed"), db)
  else if db.orgs.any (fun o => o.slug == slug) then
    (.error (.conflict "slug is already taken"), db)
  else if db.users.any (fun u => u.id == userID) then
    let oid := db.nextID
    let pid := db.nextID + 1
    let org : Organization := { id := oid, name := name, slug := slug, createdAt := now }
    let db' : DB :=
      { db with
        orgs := db.orgs ++ [org]
        orgMembers := db.orgMembers ++ [{ userID := userID, orgID := oid, role := Role.owner }]
        projects := db.projects ++
          [{ id := pid, name := "全般", organizationID := oid, isPrivate := false, createdAt := now }]
        users := updateUser db.users userID (fun u => { u with lastOrgID := some oid })
        nextID := db.nextID + 2 }
    (.ok { id := oid, name := name, slug := slug, role := "owner", createdAt := now }, db')
  else
    -- tx.User.UpdateOneID fails (user row absent) → rollback
    (.error (.internal "failed to update user context"), db)

/-- `ListOrganizations` (organization.go): the user's memberships with the
joined organization, read-only. -/
def listOrganizations (db : DB) (userID : Nat) :
    Except Err (List OrganizationResponse) × DB :=
  let memberships := db.orgMembers.filter (fun m => m.userID == userID)
  let resp := memberships.filterMap (fun m =>
    (db.orgs.find? (fun o => o.id == m.orgID)).map (fun org =>
      { id := org.id, name := org.name, slug := org.slug
        role := roleString m.role, createdAt := org.createdAt }))
  (.ok resp, db)

/-- `GetOrganization` (organization.go): looks the organization up by slug,
requires membership, then records it as the caller's last accessed
organization (save error ignored) before responding. -/
def getOrganization (db : DB) (userID : Nat) (slug : String) :
    Except Err OrganizationResponse × DB :=
  match findOrgBySlug db slug with
  | none => (.error (.notFound "organization not found"), db)
  | some org =>
    match findOrgMember db userID org.id with
    | none => (.error (.forbidden "you are not a member of this organization"), db)
    | some membership =>
      let db' : DB :=
        { db with users := updateUser db.users userID (fun u => { u with lastOrgID := some org.id }) }
      (.ok { id := org.id, name := org.name, slug := org.slug
             role := roleString membership.role, createdAt := org.createdAt }, db')

/-- The invite lookup shared by `AcceptInvite` and `GetInviteInfo`:
token match, `used_at IS NULL`, `expires_at > now`. -/
def findValidInvite (db : DB) (token : String) (now : Nat) : Option Invite :=
  db.invites.find? (fun i => i.token == token && i.usedAt == none && Nat.blt now i.expiresAt)

/-- `GetInviteInfo` (organization.go): public lookup of an unredeemed,
unexpired invite; read-only. -/
def getInviteInfo (db : DB) (token : String) (now : Nat) :
    Except Err (String × String × String × Nat) × DB :=
  match findValidInvite db token now with
  | none => (.error (.notFound "invite not found or expired"), db)
  | some inv =>
    match db.orgs.find? (fun o => o.id == inv.organizationID) with
    | none => (.error (.internal "organization edge not loaded"), db)
    | some org => (.ok (org.name, org.slug, inv.email, inv.expiresAt), db)

/-- `AcceptInvite` (organization.go): validates the token (unredeemed,
unexpired), rejects an existing member with a conflict, then in one
transaction inserts the membership (admin invite → admin role, otherwise
member; an owner-role invite also yields member), stamps the invite's
`used_at`, and updates the caller's last-visited organization. -/
def acceptInvite (db : DB) (userID : Nat) (token : String) (now : Nat) :
    Except Err OrganizationResponse × DB :=
  match findValidInvite db token now with
  | none => (.error (.notFound "invite not found or expired"), db)
  | some inv =>
    match db.orgs.find? (fun o => o.id == inv.organizationID) with
    | none => (.error (.internal "organization edge not loaded"), db)
    | some org =>
      if isOrgMember db userID inv.organizationID then
        (.error (.conflict "you are already a member of this organization"), db)
      else
        let role := if inv.role == InviteRole.admin then Role.admin else Role.member
        if db.users.any (fun u => u.id == userID) then
          let db' : DB :=
            { db with
              orgMembers := db.orgMembers ++
                [{ userID := userID, orgID := inv.organizationID, role := role }]
              invites := db.invites.map (fun i =>
                if i.id == inv.id then { i with usedAt := some now } else i)
              users := (updateUser db.users userID
                (fun u => { u with lastOrgID := some inv.organizationID })) }
          (.ok { id := org.id, name := org.name, slug := org.slug
                 role := roleString role, createdAt := org.createdAt }, db')
        else
          -- tx.User.UpdateOneID fails (user row absent) → rollback
          (.error (.internal "failed to update user context"), db)

/-- `CreateProject` (project.go): requires org membership with admin-level
role; in one transaction creates the project, adds the creator as an edit
member when (and only when) the project is private, and points the
creator's last-visited project at the new row.  The response always
reports permission "edit". -/
def createProject (db : DB) (userID : Nat) (slug name : String)
    (isPrivate : Bool) (now : Nat) : Except Err ProjectResponse × DB :=
  if name == "" then (.error (.badRequest "name is required"), db)
  else
    match findOrgBySlug db slug with
    | none => (.error (.notFound "organization not found"), db)
    | some org =>
      match findOrgMember db userID org.id with
      | none => (.error (.forbidden "you are not a member of this organization"), db)
      | some membership =>
        if !HasAdminPermission membership.role then
          (.error (.forbidden "only owners and admins can create projects"), db)
        else if db.users.any (fun u => u.id == userID) then
          let pid := db.nextID
          let proj : Project :=
            { id := pid, name := name, organizationID := org.id
              isPrivate := isPrivate, createdAt := now }
          let db' : DB :=
            { db with
              projects := db.projects ++ [proj]
              projectMembers :=
                if isPrivate then
                  db.projectMembers ++
                    [{ userID := userID, projectID := pid, permission := Permission.edit }]
                else db.projectMembers
              users := updateUser db.users userID (fun u => { u with lastProjectID := some pid })
              nextID := db.nextID + 1 }
          (.ok { id := pid, name := name, isPrivate := isPrivate
                 organizationID := org.id, permission := "edit", createdAt := now }, db')
        else
          -- tx.User.UpdateOneID fails (user row absent) → rollback
          (.error (.internal "failed to update user context"), db)

/-- Insert into a list sorted by ascending `createdAt`, keeping earlier
rows first among ties (a stable model of `Order(ent.Asc(FieldCreatedAt))`). -/
def insertByCreatedAt (p : Project) : List Project → List Project
  | [] => [p]
  | q :: qs =>
    if q.createdAt ≤ p.createdAt then q :: insertByCreatedAt p qs
    else p :: q :: qs

/-- `Order(ent.Asc(project.FieldCreatedAt))` on the queried rows. -/
def sortByCreatedAt : List Project → List Project
  | [] => []
  | p :: ps => insertByCreatedAt p (sortByCreatedAt ps)

/-- The permission reported for an accessible project: the explicit
membership row's permission when present, `view` otherwise.  This inline
logic appears in `GetProject`, `ListProjects` and `GetCurrentContext`. -/
def resolvePublicPermission (db : DB) (userID projectID : Nat) : String :=
  match findProjectMember db userID projectID with
  | some pm => permString pm.permission
  | none => "view"

/-- One entry of the `ListProjects` response: a private project appears only
when the caller holds an explicit membership (with that permission); a
public project appears for every org member, with the explicit permission
when present and "view" otherwise. -/
def listProjectEntry (db : DB) (userID : Nat) (p : Project) : Option ProjectResponse :=
  if p.isPrivate then
    match findProjectMember db userID p.id with
    | some pm =>
      some { id := p.id, name := p.name, isPrivate := p.isPrivate
             organizationID := p.organizationID
             permission := permString pm.permission, createdAt := p.createdAt }
    | none => none
  else
    let perm := resolvePublicPermission db userID p.id
    some { id := p.id, name := p.name, isPrivate := p.isPrivate
           organizationID := p.organizationID
           permission := perm, createdAt := p.createdAt }

/-- `ListProjects` (project.go): requires org membership, lists the org's
projects ordered by creation time, filtering private ones to explicit
members; read-only. -/
def listProjects (db : DB) (userID : Nat) (slug : String) :
    Except Err (List ProjectResponse) × DB :=
  match findOrgBySlug db slug with
  | none => (.error (.notFound "organization not found"), db)
  | some org =>
    match findOrgMember db userID org.id with
    | none => (.error (.forbidden "you are not a member of this organization"), db)
    | some _ =>
      let projects := sortByCreatedAt (db.projects.filter (fun p => p.organizationID == org.id))
      (.ok (projects.filterMap (listProjectEntry db userID)), db)

/-- `GetProject` (project.go): requires org membership; a private project
additionally requires an explicit `ProjectMember` row (else forbidden) and
reports its permission, a public one reports the explicit permission when
present and "view" otherwise; on success the caller's last-visited project
and organization are recorded (save error ignored). -/
def getProject (db : DB) (userID : Nat) (slug : String) (projectID : Nat) :
    Except Err ProjectResponse × DB :=
  match findOrgBySlug db slug with
  | none => (.error (.notFound "organization not found"), db)
  | some org =>
    match findOrgMember db userID org.id with
    | none => (.error (.forbidden "you are not a member of this organization"), db)
    | some _ =>
      match findProjectInOrg db projectID org.id with
      | none => (.error (.notFound "project not found"), db)
      | some proj =>
        let touch : DB :=
          { db with users := (updateUser db.users userID
              (fun u => { u with lastProjectID := some proj.id, lastOrgID := some org.id })) }
        if proj.isPrivate then
          match findProjectMember db userID proj.id with
          | none => (.error (.forbidden "you do not have access to this project"), db)
          | some pm =>
            (.ok { id := proj.id, name := proj.name, isPrivate := proj.isPrivate
                   organizationID := proj.organizationID
                   permission := permString pm.permission
                   createdAt := proj.createdAt }, touch)
        else
          (.ok { id := proj.id, name := proj.name, isPrivate := proj.isPrivate
                 organizationID := proj.organizationID
                 permission := resolvePublicPermission db userID proj.id
                 createdAt := proj.createdAt }, touch)

/-- `ContextResponse` (context.go). -/
structure ContextResponse where
  hasContext : Bool
  organization : Option OrganizationResponse
  project : Option ProjectResponse
  redirectURL : String
deriving DecidableEq, Repr

/-- `GetCurrentContext` (context.go).  With no stored last-organization the
user is sent to `/org/new` only when they have no memberships at all,
otherwise to the first membership's organization.  A stored organization
that is gone or whose membership was revoked is cleared (both pointers)
with a redirect to `/org/new`.  A valid organization yields its home URL,
narrowed to the last project's page when that project belongs to the
organization and is accessible (public, or private with an explicit
membership); an inaccessible project pointer is ignored for the response
without being cleared. -/
def getCurrentContext (db : DB) (userID : Nat) :
    Except Err ContextResponse × DB :=
  match db.users.find? (fun u => u.id == userID) with
  | none => (.error (.notFound "user not found"), db)
  | some user =>
    match user.lastOrgID with
    | none =>
      match db.orgMembers.filter (fun m => m.userID == userID) with
      | [] =>
        (.ok { hasContext := false, organization := none, project := none
               redirectURL := "/org/new" }, db)
      | m :: _ =>
        match db.orgs.find? (fun o => o.id == m.orgID) with
        | none => (.error (.internal "organization edge not loaded"), db)
        | some org =>
          (.ok { hasContext := false, organization := none, project := none
                 redirectURL := "/org/" ++ org.slug }, db)
    | some lastOrg =>
      match db.orgs.find? (fun o => o.id == lastOrg) with
      | none =>
        let db' : DB :=
          { db with users := (updateUser db.users userID
              (fun u => { u with lastOrgID := none, lastProjectID := none })) }
        (.ok { hasContext := false, organization := none, project := none
               redirectURL := "/org/new" }, db')
      | some org =>
        match findOrgMember db userID org.id with
        | none =>
          let db' : DB :=
            { db with users := (updateUser db.users userID
                (fun u => { u with lastOrgID := none, lastProjectID := none })) }
          (.ok { hasContext := false, organization := none, project := none
                 redirectURL := "/org/new" }, db')
        | some membership =>
          let orgResp : OrganizationResponse :=
            { id := org.id, name := org.name, slug := org.slug
              role := roleString membership.role, createdAt := org.createdAt }
          let base : ContextResponse :=
            { hasContext := true, organization := some orgResp, project := none
              redirectURL := "/org/" ++ org.slug }
          match user.lastProjectID with
          | none => (.ok base, db)
          | some lastProj =>
            match findProjectInOrg db lastProj org.id with
            | none => (.ok base, db)
            | some proj =>
              let hasAccess :=
                if proj.isPrivate then (findProjectMember db userID proj.id).isSome else true
              let permission := resolvePublicPermission db userID proj.id
              if hasAccess then
                (.ok { base with
                    project := some
                      { id := proj.id, name := proj.name, isPrivate := proj.isPrivate
                        organizationID := proj.organizationID
                        permission := permission, createdAt := proj.createdAt }
                    redirectURL :=
                      "/org/" ++ org.slug ++ "/projects/" ++ toString proj.id }, db)
              else
                (.ok base, db)

/-- `update.Save(ctx)` at the end of `UpdateContext`: applies the
accumulated user mutation, failing when the user row is absent. -/
def saveContext (db : DB) (userID : Nat) (f : User → User) : Except Err Unit × DB :=
  if db.users.any (fun u => u.id == userID) then
    (.ok (), { db with users := updateUser db.users userID f })
  else
    (.error (.internal "failed to update context"), db)

/-- The project branch of `UpdateContext` plus the final save; `pending` is
the user mutation accumulated from the organization branch. -/
def updateContextProject (db : DB) (userID : Nat) (pending : User → User)
    (projectID? : Option Nat) : Except Err Unit × DB :=
  match projectID? with
  | none => saveContext db userID pending
  | some projectID =>
    match db.projects.find? (fun p => p.id == projectID) with
    | none => (.error (.notFound "project not found"), db)
    | some proj =>
      if !(isOrgMember db userID proj.organizationID) then
        (.error (.forbidden "you are not a member of this organization"), db)
      else if proj.isPrivate && !(isProjectMember db userID projectID) then
        (.error (.forbidden "you do not have access to this project"), db)
      else
        saveContext db userID (fun u =>
          { (pending u) with
            lastProjectID := some projectID
            lastOrgID := some proj.organizationID })

/-- `UpdateContext` (context.go): each provided reference is validated
before anything is saved — an organization requires membership; a project
must exist, its organization requires membership, and a private project
additionally requires an explicit `ProjectMember` row.  Providing a project
also sets its parent organization as the last-organization (overriding a
simultaneously provided organization).  Only after all checks pass is the
single user update saved. -/
def updateContext (db : DB) (userID : Nat) (orgID? projectID? : Option Nat) :
    Except Err Unit × DB :=
  match orgID? with
  | some orgID =>
    if !(isOrgMember db userID orgID) then
      (.error (.forbidden "you are not a member of this organization"), db)
    else
      updateContextProject db userID (fun u => { u with lastOrgID := some orgID }) projectID?
  | none => updateContextProject db userID id projectID?

/-- Membership is preserved by sorted insertion. -/
theorem mem_insertByCreatedAt (a p : Project) (l : List Project) :
    a ∈ insertByCreatedAt p l ↔ a = p ∨ a ∈ l := by
  induction l with
  | nil => simp [insertByCreatedAt]
  | cons q qs ih =>
    unfold insertByCreatedAt
    split
    · rw [List.mem_cons, ih, List.mem_cons]
      tauto
    · rw [List.mem_cons]

/-- Sorting by creation time is a permutation for membership purposes. -/
theorem mem_sortByCreatedAt (a : Project) (l : List Project) :
    a ∈ sortByCreatedAt l ↔ a ∈ l := by
  induction l with
  | nil => simp [sortByCreatedAt]
  | cons p ps ih =>
    unfold sortByCreatedAt
    rw [mem_insertByCreatedAt]
    simp [ih]

end TeamTodo

namespace TeamTodo.Auth

/-!  Symbolic model of the JWT service (`internal/auth/jwt.go`).  A signed
token is a record of its claims and the key it was signed with; HS256 is the
only signing method the model can construct, so the signing-method check of
`ValidateAccessToken` is always satisfied.  Timestamps are `Nat` seconds.  -/

/-- JWT claims embedded in an access token (`auth.Claims` plus the
registered claims the service sets). -/
structure Claims where
  userID : Nat
  email : String
  displayName : String
  expiresAt : Nat
  issuedAt : Nat
  notBefore : Nat
  issuer : String
  subject : Nat
deriving DecidableEq, Repr

/-- A signed token: claims plus the (symbolic HMAC) signing key. -/
structure SignedToken where
  claims : Claims
  signedWith : String
deriving DecidableEq, Repr

/-- Token validation failures (`ErrExpiredToken` / `ErrInvalidToken`). -/
inductive TokenErr where
  | expired
  | invalid
deriving DecidableEq, Repr

/-- Access-token lifetime: 15 minutes, in seconds. -/
def accessExpirySeconds : Nat := 15 * 60

/-- Refresh-token lifetime: 7 days, in seconds. -/
def refreshExpirySeconds : Nat := 7 * 24 * 60 * 60

/-- `GenerateAccessToken`: signs claims carrying the user identity with
expiry `now + 15m`, issued-at and not-before `now`. -/
def generateAccessToken (secretKey : String) (userID : Nat)
    (email displayName : String) (now : Nat) : SignedToken :=
  { claims :=
      { userID := userID
        email := email
        displayName := displayName
        expiresAt := now + accessExpirySeconds
        issuedAt := now
        notBefore := now
        issuer := "team-todo"
        subject := userID }
    signedWith := secretKey }

/-- `ValidateAccessToken`: rejects a wrong key as `invalid`; an elapsed
expiry as `expired` (the jwt library treats a token as live only while
`now < exp`); a not-yet-valid token as `invalid` (the handler folds every
non-expiry validation error into `ErrInvalidToken`). -/
def validateAccessToken (secretKey : String) (tok : SignedToken) (now : Nat) :
    Except TokenErr Claims :=
  if tok.signedWith ≠ secretKey then .error .invalid
  else if tok.claims.expiresAt ≤ now then .error .expired
  else if now < tok.claims.notBefore then .error .invalid
  else .ok tok.claims

/-- `TokenPair` returned by `GenerateTokenPair`. -/
structure TokenPair where
  accessToken : SignedToken
  refreshToken : SignedToken
  expiresIn : Nat
deriving DecidableEq, Repr

/-- `GenerateRefreshToken`: only a subject claim, 7-day expiry.  The Go
code leaves email/display-name out of the refresh claims; the model carries
them as empty strings. -/
def generateRefreshToken (secretKey : String) (userID : Nat) (now : Nat) :
    SignedToken :=
  { claims :=
      { userID := 0
        email := ""
        displayName := ""
        expiresAt := now + refreshExpirySeconds
        issuedAt := now
        notBefore := now
        issuer := "team-todo"
        subject := userID }
    signedWith := secretKey }

/-- `GenerateTokenPair`: both tokens, `expires_in` = access expiry seconds. -/
def generateTokenPair (secretKey : String) (userID : Nat)
    (email displayName : String) (now : Nat) : TokenPair :=
  { accessToken := generateAccessToken secretKey userID email displayName now
    refreshToken := generateRefreshToken secretKey userID now
    expiresIn := accessExpirySeconds }

end TeamTodo.Auth

namespace TeamTodo

/-!  ## Claim theorems  -/

/-- Spec predicate (§4.2): the user holds an explicit ProjectMember row
granting `edit` on the project. -/
def hasEditGrant (db : DB) (userID projectID : Nat) : Bool :=
  db.projectMembers.any (fun pm =>
    pm.userID == userID && pm.projectID == projectID && pm.permission == Permission.edit)

/-- Uniqueness of `(user, project)` pairs in the `ProjectMember` table,
the schema's unique index. -/
def ProjectMemberUnique (db : DB) : Prop :=
  ∀ pm1 ∈ db.projectMembers, ∀ pm2 ∈ db.projectMembers,
    pm1.userID = pm2.userID → pm1.projectID = pm2.projectID → pm1 = pm2

instance (db : DB) : Decidable (ProjectMemberUnique db) := by
  unfold ProjectMemberUnique; infer_instance

/-- Uniqueness of project ids, the schema's primary key. -/
def ProjectIDUnique (db : DB) : Prop :=
  ∀ p1 ∈ db.projects, ∀ p2 ∈ db.projects, p1.id = p2.id → p1 = p2

instance (db : DB) : Decidable (ProjectIDUnique db) := by
  unfold ProjectIDUnique; infer_instance

/-- The explicit-row lookup agrees with the spec's tie-break rule: the
resolved permission string is `edit` exactly when an explicit edit grant
exists, `view` otherwise (under the unique index on `(user, project)`). -/
theorem resolvePublicPermission_eq (db : DB) (u pid : Nat)
    (huniq : ProjectMemberUnique db) :
    resolvePublicPermission db u pid =
      (if hasEditGrant db u pid then "edit" else "view") := by
  unfold resolvePublicPermission
  cases hfind : findProjectMember db u pid with
  | none =>
    have hno : hasEditGrant db u pid = false := by
      rw [Bool.eq_false_iff]
      intro hany
      obtain ⟨pm, hmem, hpm⟩ := List.any_eq_true.mp hany
      have := List.find?_eq_none.mp hfind pm hmem
      simp only [Bool.and_eq_true, beq_iff_eq] at hpm this
      exact this ⟨hpm.1.1, hpm.1.2⟩
    rw [hno]
    rfl
  | some pm =>
    have hmem : pm ∈ db.projectMembers := List.mem_of_find?_eq_some hfind
    have hpm := List.find?_some hfind
    simp only [Bool.and_eq_true, beq_iff_eq] at hpm
    cases hperm : pm.permission with
    | edit =>
      have hyes : hasEditGrant db u pid = true :=
        List.any_eq_true.mpr ⟨pm, hmem, by
          simp [hpm.1, hpm.2, hperm]⟩
      rw [hyes]
      simp [hperm, permString]
    | view =>
      have hno : hasEditGrant db u pid = false := by
        rw [Bool.eq_false_iff]
        intro hany
        obtain ⟨pm2, hmem2, hpm2⟩ := List.any_eq_true.mp hany
        simp only [Bool.and_eq_true, beq_iff_eq] at hpm2
        have : pm2 = pm :=
          huniq pm2 hmem2 pm hmem (hpm2.1.1.trans hpm.1.symm)
            (hpm2.1.2.trans hpm.2.symm)
        rw [this, hperm] at hpm2
        exact absurd hpm2.2 (by simp)
      rw [hno]
      simp [hperm, permString]

/-- A `ListProjects` entry keeps the project id. -/
theorem listProjectEntry_id (db : DB) (u : Nat) (p : Project) (r : ProjectResponse)
    (h : listProjectEntry db u p = some r) : r.id = p.id := by
  unfold listProjectEntry at h
  split at h
  · split at h
    · exact (Option.some.inj h) ▸ rfl
    · exact absurd h (by simp)
  · exact (Option.some.inj h) ▸ rfl

/-- C1: for a user who belongs to the project's organization, project
permission resolution follows the reference definition: a private project
is accessible (with the granted permission) exactly when an explicit
ProjectMember row exists — `GetProject` otherwise fails with Forbidden,
whatever the user's organization role, and `ListProjects` omits the
project — while a public project resolves to view unless an explicit row
grants edit. -/
theorem resolveProjectPermission_spec (db : DB) (u : Nat) (slug : String)
    (org : Organization) (m : OrgMember) (proj : Project)
    (horg : findOrgBySlug db slug = some org)
    (hmem : findOrgMember db u org.id = some m)
    (hproj : findProjectInOrg db proj.id org.id = some proj)
    (huniq : ProjectMemberUnique db) (hpids : ProjectIDUnique db) :
    (proj.isPrivate = true → findProjectMember db u proj.id = none →
      (getProject db u slug proj.id).1 =
        Except.error (Err.forbidden "you do not have access to this project")) ∧
    (proj.isPrivate = true → ∀ pm, findProjectMember db u proj.id = some pm →
      (getProject db u slug proj.id).1 =
        Except.ok { id := proj.id, name := proj.name, isPrivate := proj.isPrivate
                    organizationID := proj.organizationID
                    permission := permString pm.permission
                    createdAt := proj.createdAt }) ∧
    (proj.isPrivate = false →
      (getProject db u slug proj.id).1 =
        Except.ok { id := proj.id, name := proj.name, isPrivate := proj.isPrivate
                    organizationID := proj.organizationID
                    permission := if hasEditGrant db u proj.id then "edit" else "view"
                    createdAt := proj.createdAt }) ∧
    (proj.isPrivate = true → findProjectMember db u proj.id = none →
      ∀ ps, (listProjects db u slug).1 = Except.ok ps → ∀ r ∈ ps, r.id ≠ proj.id) ∧
    (proj.isPrivate = true → ∀ pm, findProjectMember db u proj.id = some pm →
      ∀ ps, (listProjects db u slug).1 = Except.ok ps →
        ∃ r ∈ ps, r.id = proj.id ∧ r.permission = permString pm.permission) := by
  have hprojmem : proj ∈ db.projects := List.mem_of_find?_eq_some hproj
  have hprojpred := List.find?_some hproj
  simp only [Bool.and_eq_true, beq_iff_eq] at hprojpred
  refine ⟨?_, ?_, ?_, ?_, ?_⟩
  · intro hpriv hnone
    simp only [getProject, horg, hmem, hproj, hpriv, hnone]
    rfl
  · intro hpriv pm hpm
    simp only [getProject, horg, hmem, hproj, hpriv, hpm]
    rfl
  · intro hpub
    simp only [getProject, horg, hmem, hproj, hpub]
    simp [resolvePublicPermission_eq db u proj.id huniq]
  · intro hpriv hnone ps hps r hr hid
    simp only [listProjects, horg, hmem] at hps
    obtain rfl := Except.ok.inj hps
    obtain ⟨p, hp, hpe⟩ := List.mem_filterMap.mp hr
    have hpmemdb : p ∈ db.projects :=
      (List.mem_filter.mp ((mem_sortByCreatedAt p _).mp hp)).1
    have hpid : p.id = proj.id := by
      rw [← listProjectEntry_id db u p r hpe, hid]
    obtain rfl : p = proj := hpids p hpmemdb proj hprojmem hpid
    simp only [listProjectEntry, hpriv, hnone] at hpe
    exact absurd hpe (by simp)
  · intro hpriv pm hpm ps hps
    simp only [listProjects, horg, hmem] at hps
    obtain rfl := Except.ok.inj hps
    refine ⟨{ id := proj.id, name := proj.name, isPrivate := proj.isPrivate
              organizationID := proj.organizationID
              permission := permString pm.permission
              createdAt := proj.createdAt }, ?_, rfl, rfl⟩
    apply List.mem_filterMap.mpr
    refine ⟨proj, ?_, ?_⟩
    · exact (mem_sortByCreatedAt proj _).mpr
        (List.mem_filter.mpr ⟨hprojmem, by simp [hprojpred.2]⟩)
    · simp only [listProjectEntry, hpriv, hpm]
      rfl

/-- Elements of an updated users table come from the original table,
mapped through the update at the matching id. -/
theorem mem_updateUser (users : List User) (u : Nat) (f : User → User)
    (usr : User) (h : usr ∈ updateUser users u f) :
    ∃ x ∈ users, usr = if x.id == u then f x else x := by
  obtain ⟨x, hx, hxe⟩ := List.mem_map.mp h
  exact ⟨x, hx, hxe.symm⟩

/-- Concrete store for the C3 results: user 1 has a null last-organization
pointer but belongs to org `acme`; user 2 has a null pointer and no
memberships. -/
def c3db : DB :=
  { users :=
      [{ id := 1, email := "a@example.com", displayName := "A"
         lastOrgID := none, lastProjectID := none },
       { id := 2, email := "b@example.com", displayName := "B"
         lastOrgID := none, lastProjectID := none }]
    orgs := [{ id := 10, name := "Acme", slug := "acme", createdAt := 0 }]
    orgMembers := [{ userID := 1, orgID := 10, role := Role.member }]
    projects := []
    projectMembers := []
    invites := []
    nextID := 50 }

/-- C3 counterexample: user 1's stored last-organization pointer is null,
yet `GetCurrentContext` redirects to the home of the user's first
membership organization, not to the create-organization screen. -/
theorem getCurrentContext_noLastOrg_counterexample :
    (getCurrentContext c3db 1).1 =
      Except.ok { hasContext := false, organization := none, project := none
                  redirectURL := "/org/acme" } ∧
    "/org/acme" ≠ "/org/new" :=
  ⟨rfl, by decide⟩

/-- C3 (amended): with a null last-organization pointer,
`GetCurrentContext` redirects to the create-organization screen only when
the user has no organization membership at all; when memberships exist it
redirects to the first membership's organization home.  The store is not
modified in either case. -/
theorem getCurrentContext_noLastOrg (db : DB) (u : Nat) (user : User)
    (huser : db.users.find? (fun x => x.id == u) = some user)
    (hnone : user.lastOrgID = none) :
    (db.orgMembers.filter (fun m => m.userID == u) = [] →
      getCurrentContext db u =
        (Except.ok { hasContext := false, organization := none, project := none
                     redirectURL := "/org/new" }, db)) ∧
    (∀ m ms, db.orgMembers.filter (fun m => m.userID == u) = m :: ms →
      ∀ org, db.orgs.find? (fun o => o.id == m.orgID) = some org →
        getCurrentContext db u =
          (Except.ok { hasContext := false, organization := none, project := none
                       redirectURL := "/org/" ++ org.slug }, db)) := by
  constructor
  · intro hfil
    simp only [getCurrentContext, huser, hnone, hfil]
  · intro m ms hfil org horg
    simp only [getCurrentContext, huser, hnone, hfil, horg]

/-- Witness for the amended C3 on `c3db`: user 2 (no memberships) is sent
to the create-organization screen; user 1 (member of `acme`) is sent to
that organization's home. -/
theorem getCurrentContext_noLastOrg_witness :
    getCurrentContext c3db 2 =
      (Except.ok { hasContext := false, organization := none, project := none
                   redirectURL := "/org/new" }, c3db) ∧
    getCurrentContext c3db 1 =
      (Except.ok { hasContext := false, organization := none, project := none
                   redirectURL := "/org/acme" }, c3db) :=
  ⟨(getCurrentContext_noLastOrg c3db 2
      ⟨2, "b@example.com", "B", none, none⟩ rfl rfl).1 rfl,
   (getCurrentContext_noLastOrg c3db 1
      ⟨1, "a@example.com", "A", none, none⟩ rfl rfl).2
      ⟨1, 10, Role.member⟩ [] rfl ⟨10, "Acme", "acme", 0⟩ rfl⟩

/-- Concrete store for the C4 witness: user 1's stored organization 99 no
longer exists; user 2's stored organization 10 exists but the membership
was revoked.  Both users also carry a stale project pointer. -/
def c4db : DB :=
  { users :=
      [{ id := 1, email := "a@example.com", displayName := "A"
         lastOrgID := some 99, lastProjectID := some 77 },
       { id := 2, email := "b@example.com", displayName := "B"
         lastOrgID := some 10, lastProjectID := some 77 }]
    orgs := [{ id := 10, name := "Acme", slug := "acme", createdAt := 0 }]
    orgMembers := []
    projects := []
    projectMembers := []
    invites := []
    nextID := 50 }

/-- C4: when the stored last-organization no longer exists, or the user's
membership in it has been revoked, `GetCurrentContext` clears both the
last-organization and last-project pointers in the store and redirects to
the create-organization screen. -/
theorem getCurrentContext_selfHeal (db : DB) (u : Nat) (user : User) (lastOrg : Nat)
    (huser : db.users.find? (fun x => x.id == u) = some user)
    (hsome : user.lastOrgID = some lastOrg)
    (hbad : db.orgs.find? (fun o => o.id == lastOrg) = none ∨
            findOrgMember db u lastOrg = none) :
    getCurrentContext db u =
      (Except.ok { hasContext := false, organization := none, project := none
                   redirectURL := "/org/new" },
       { db with users := (updateUser db.users u
           (fun x => { x with lastOrgID := none, lastProjectID := none })) }) ∧
    (∀ usr ∈ (getCurrentContext db u).2.users, usr.id = u →
      usr.lastOrgID = none ∧ usr.lastProjectID = none) := by
  have key : getCurrentContext db u =
      (Except.ok { hasContext := false, organization := none, project := none
                   redirectURL := "/org/new" },
       { db with users := (updateUser db.users u
           (fun x => { x with lastOrgID := none, lastProjectID := none })) }) := by
    cases hbad with
    | inl horg => simp only [getCurrentContext, huser, hsome, horg]
    | inr hmem =>
      cases horg : db.orgs.find? (fun o => o.id == lastOrg) with
      | none => simp only [getCurrentContext, huser, hsome, horg]
      | some org =>
        have hid : org.id = lastOrg := by
          have := List.find?_some horg
          simpa using this
        simp only [getCurrentContext, huser, hsome, horg, hid, hmem]
  refine ⟨key, ?_⟩
  rw [key]
  intro usr husr hid
  obtain ⟨x, _, hxe⟩ := mem_updateUser _ _ _ _ husr
  by_cases hxid : x.id = u
  · rw [hxe]
    simp [hxid]
  · exfalso
    apply hxid
    rw [hxe] at hid
    simp [hxid] at hid

/-- Witness for C4 on `c4db`: both the dangling-organization case (user 1)
and the revoked-membership case (user 2) clear the stored pointers and
redirect to the create-organization screen. -/
theorem getCurrentContext_selfHeal_witness :
    (getCurrentContext c4db 1).1 =
      Except.ok { hasContext := false, organization := none, project := none
                  redirectURL := "/org/new" } ∧
    ((getCurrentContext c4db 1).2.users.find? (fun x => x.id == 1)).map
      (fun x => (x.lastOrgID, x.lastProjectID)) = some (none, none) ∧
    (getCurrentContext c4db 2).1 =
      Except.ok { hasContext := false, organization := none, project := none
                  redirectURL := "/org/new" } ∧
    ((getCurrentContext c4db 2).2.users.find? (fun x => x.id == 2)).map
      (fun x => (x.lastOrgID, x.lastProjectID)) = some (none, none) := by
  have h1 := getCurrentContext_selfHeal c4db 1
    ⟨1, "a@example.com", "A", some 99, some 77⟩ 99 rfl rfl (Or.inl rfl)
  have h2 := getCurrentContext_selfHeal c4db 2
    ⟨2, "b@example.com", "B", some 10, some 77⟩ 10 rfl rfl (Or.inr rfl)
  refine ⟨by rw [h1.1], ?_, by rw [h2.1], ?_⟩
  · rw [h1.1]
    rfl
  · rw [h2.1]
    rfl

/-- Destructuring a successful `AcceptInvite`: the token resolved to a
valid invite, the caller was not yet a member, the user row exists, and
the resulting store carries exactly the three transactional writes. -/
theorem acceptInvite_ok_destruct (db : DB) (u : Nat) (tok : String) (now : Nat)
    (resp : OrganizationResponse) (db' : DB)
    (h : acceptInvite db u tok now = (Except.ok resp, db')) :
    ∃ inv, findValidInvite db tok now = some inv ∧
      isOrgMember db u inv.organizationID = false ∧
      db.users.any (fun x => x.id == u) = true ∧
      db' = { db with
        orgMembers := db.orgMembers ++
          [{ userID := u, orgID := inv.organizationID
             role := if inv.role == InviteRole.admin then Role.admin else Role.member }]
        invites := db.invites.map (fun i =>
          if i.id == inv.id then { i with usedAt := some now } else i)
        users := (updateUser db.users u
          (fun x => { x with lastOrgID := some inv.organizationID })) } := by
  simp only [acceptInvite] at h
  cases hinv : findValidInvite db tok now with
  | none =>
    simp only [hinv] at h
    exact absurd h (by simp)
  | some inv =>
    simp only [hinv] at h
    cases horg : db.orgs.find? (fun o => o.id == inv.organizationID) with
    | none =>
      simp only [horg] at h
      exact absurd h (by simp)
    | some org =>
      simp only [horg] at h
      by_cases hmem : isOrgMember db u inv.organizationID = true
      · rw [if_pos hmem] at h
        exact absurd h (by simp)
      · rw [if_neg hmem] at h
        by_cases huser : db.users.any (fun x => x.id == u) = true
        · rw [if_pos huser] at h
          exact ⟨inv, rfl, by simpa using hmem, huser,
            (congrArg Prod.snd h).symm⟩
        · rw [if_neg huser] at h
          exact absurd h (by simp)

/-- Any error branch of `AcceptInvite` leaves the store unchanged. -/
theorem acceptInvite_error_frame (db : DB) (u : Nat) (tok : String) (now : Nat)
    (e : Err) (db' : DB)
    (h : acceptInvite db u tok now = (Except.error e, db')) : db' = db := by
  simp only [acceptInvite] at h
  cases hinv : findValidInvite db tok now with
  | none =>
    simp only [hinv] at h
    exact (congrArg Prod.snd h).symm
  | some inv =>
    simp only [hinv] at h
    cases horg : db.orgs.find? (fun o => o.id == inv.organizationID) with
    | none =>
      simp only [horg] at h
      exact (congrArg Prod.snd h).symm
    | some org =>
      simp only [horg] at h
      by_cases hmem : isOrgMember db u inv.organizationID = true
      · rw [if_pos hmem] at h
        exact (congrArg Prod.snd h).symm
      · rw [if_neg hmem] at h
        by_cases huser : db.users.any (fun x => x.id == u) = true
        · rw [if_pos huser] at h
          exact absurd h (by simp)
        · rw [if_neg huser] at h
          exact (congrArg Prod.snd h).symm

/-- Concrete store for the C5 witness: an admin invite with token "tok"
to org `acme`, expiring at time 100, for user 1 who is not yet a member. -/
def c5db : DB :=
  { users :=
      [{ id := 1, email := "a@example.com", displayName := "A"
         lastOrgID := none, lastProjectID := none }]
    orgs := [{ id := 10, name := "Acme", slug := "acme", createdAt := 0 }]
    orgMembers := []
    projects := []
    projectMembers := []
    invites :=
      [{ id := 40, token := "tok", email := "a@example.com", organizationID := 10
         role := InviteRole.admin, invitedByID := 2, expiresAt := 100, usedAt := none }]
    nextID := 60 }

/-- C5: a successful `AcceptInvite` implies the token re-validated
(unredeemed, unexpired) and the caller was not a member, and the resulting
store simultaneously carries the membership insert (admin invite → admin
role, otherwise member), the used-at stamp on the invite, and the caller's
updated last-organization pointer, with every other table untouched; any
failing outcome leaves the store exactly as it was. -/
theorem acceptInvite_atomic (db : DB) (u : Nat) (tok : String) (now : Nat) :
    (∀ resp db', acceptInvite db u tok now = (Except.ok resp, db') →
      ∃ inv, findValidInvite db tok now = some inv ∧
        inv.usedAt = none ∧ now < inv.expiresAt ∧
        isOrgMember db u inv.organizationID = false ∧
        db'.orgMembers = db.orgMembers ++
          [{ userID := u, orgID := inv.organizationID
             role := if inv.role == InviteRole.admin then Role.admin else Role.member }] ∧
        db'.invites = db.invites.map (fun i =>
          if i.id == inv.id then { i with usedAt := some now } else i) ∧
        (∃ usr ∈ db'.users, usr.id = u ∧ usr.lastOrgID = some inv.organizationID) ∧
        db'.orgs = db.orgs ∧ db'.projects = db.projects ∧
        db'.projectMembers = db.projectMembers) ∧
    (∀ e db', acceptInvite db u tok now = (Except.error e, db') → db' = db) := by
  constructor
  · intro resp db' h
    obtain ⟨inv, hinv, hnotmem, husers, hdb'⟩ :=
      acceptInvite_ok_destruct db u tok now resp db' h
    have hpred := List.find?_some hinv
    simp only [Bool.and_eq_true, beq_iff_eq] at hpred
    obtain ⟨⟨htokeq, hunused⟩, hblt⟩ := hpred
    obtain ⟨x, hx, hxu⟩ := List.any_eq_true.mp husers
    rw [beq_iff_eq] at hxu
    subst hdb'
    refine ⟨inv, hinv, hunused, ?_, hnotmem, rfl, rfl, ?_, rfl, rfl, rfl⟩
    · simpa [Nat.blt_eq] using hblt
    · refine ⟨{ x with lastOrgID := some inv.organizationID }, ?_, hxu, rfl⟩
      unfold updateUser
      exact List.mem_map.mpr ⟨x, hx, by simp [hxu]⟩
  · exact fun e db' h => acceptInvite_error_frame db u tok now e db' h

/-- Witness for C5 on `c5db`: accepting the admin invite at time 50
inserts the admin membership, stamps the invite as used at 50 and points
user 1's last organization at org 10, all in the one resulting store; an
attempt at time 200 (past the expiry) leaves the store untouched. -/
theorem acceptInvite_atomic_witness :
    (acceptInvite c5db 1 "tok" 50).2.orgMembers =
      [{ userID := 1, orgID := 10, role := Role.admin }] ∧
    (acceptInvite c5db 1 "tok" 50).2.invites.map (fun i => i.usedAt) = [some 50] ∧
    (acceptInvite c5db 1 "tok" 50).2.users.map (fun x => x.lastOrgID) = [some 10] ∧
    (acceptInvite c5db 1 "tok" 200).2 = c5db := by
  refine ⟨rfl, rfl, rfl, ?_⟩
  exact (acceptInvite_atomic c5db 1 "tok" 200).2
    (Err.notFound "invite not found or expired") (acceptInvite c5db 1 "tok" 200).2 rfl

/-- Concrete store for the C2 witness: a member invite with token "tok" to
org `acme` (expiry 100); users 1 and 2 are outsiders while user 3 already
belongs to the organization. -/
def c2db : DB :=
  { users :=
      [{ id := 1, email := "a@example.com", displayName := "A"
         lastOrgID := none, lastProjectID := none },
       { id := 2, email := "b@example.com", displayName := "B"
         lastOrgID := none, lastProjectID := none },
       { id := 3, email := "c@example.com", displayName := "C"
         lastOrgID := none, lastProjectID := none }]
    orgs := [{ id := 10, name := "Acme", slug := "acme", createdAt := 0 }]
    orgMembers := [{ userID := 3, orgID := 10, role := Role.member }]
    projects := []
    projectMembers := []
    invites :=
      [{ id := 40, token := "tok", email := "b@example.com", organizationID := 10
         role := InviteRole.member, invitedByID := 3, expiresAt := 100, usedAt := none }]
    nextID := 60 }

/-- C2: under the schema's unique token index, a successful `AcceptInvite`
stamps the invite, so any later attempt with the same token — by any user,
at any time — fails with the not-found-or-expired outcome; and an attempt
by a user who already holds a membership of the invite's organization
fails with the already-member conflict, leaving the store unchanged. -/
theorem acceptInvite_single_use (db : DB) (u : Nat) (tok : String) (now : Nat)
    (htok : ∀ i1 ∈ db.invites, ∀ i2 ∈ db.invites, i1.token = i2.token → i1 = i2) :
    (∀ resp db', acceptInvite db u tok now = (Except.ok resp, db') →
      ∀ u2 now2, (acceptInvite db' u2 tok now2).1 =
        Except.error (Err.notFound "invite not found or expired")) ∧
    (∀ inv org, findValidInvite db tok now = some inv →
      db.orgs.find? (fun o => o.id == inv.organizationID) = some org →
      isOrgMember db u inv.organizationID = true →
      acceptInvite db u tok now =
        (Except.error (Err.conflict "you are already a member of this organization"), db)) := by
  constructor
  · intro resp db' h u2 now2
    obtain ⟨inv, hinv, hnotmem, husers, hdb'⟩ :=
      acceptInvite_ok_destruct db u tok now resp db' h
    have hinvmem : inv ∈ db.invites := List.mem_of_find?_eq_some hinv
    have hpred := List.find?_some hinv
    simp only [Bool.and_eq_true, beq_iff_eq] at hpred
    have hnone : findValidInvite db' tok now2 = none := by
      unfold findValidInvite
      apply List.find?_eq_none.mpr
      intro i' hi'
      rw [hdb'] at hi'
      obtain ⟨i0, hi0, hstamp⟩ := List.mem_map.mp hi'
      intro hcontra
      simp only [Bool.and_eq_true, beq_iff_eq] at hcontra
      have htokpres : i'.token = i0.token := by
        rw [← hstamp]
        by_cases hid : (i0.id == inv.id) = true <;> simp [hid]
      have hi0tok : i0.token = tok := htokpres.symm.trans hcontra.1.1
      have heq : i0 = inv := htok i0 hi0 inv hinvmem (hi0tok.trans hpred.1.1.symm)
      subst heq
      rw [← hstamp] at hcontra
      simp at hcontra
    simp only [acceptInvite, hnone]
  · intro inv org hinv horg hmem
    simp [acceptInvite, hinv, horg, hmem]

/-- Witness for C2 on `c2db`: after user 1 redeems the invite at time 50,
user 2's attempt at time 60 finds no valid invite; user 3, already a
member, is rejected with the conflict outcome and nothing changes. -/
theorem acceptInvite_single_use_witness :
    (acceptInvite ((acceptInvite c2db 1 "tok" 50).2) 2 "tok" 60).1 =
      Except.error (Err.notFound "invite not found or expired") ∧
    acceptInvite c2db 3 "tok" 50 =
      (Except.error (Err.conflict "you are already a member of this organization"), c2db) := by
  constructor
  · exact (acceptInvite_single_use c2db 1 "tok" 50 (by decide)).1
      { id := 10, name := "Acme", slug := "acme", role := "member", createdAt := 0 }
      (acceptInvite c2db 1 "tok" 50).2 rfl 2 60
  · exact (acceptInvite_single_use c2db 3 "tok" 50 (by decide)).2
      { id := 40, token := "tok", email := "b@example.com", organizationID := 10
        role := InviteRole.member, invitedByID := 3, expiresAt := 100, usedAt := none }
      { id := 10, name := "Acme", slug := "acme", createdAt := 0 } rfl rfl rfl

/-- Concrete store for the C6 results: a single user and no organizations
yet; the id allocator stands at 100. -/
def c6db : DB :=
  { users :=
      [{ id := 1, email := "a@example.com", displayName := "A"
         lastOrgID := none, lastProjectID := none }]
    orgs := []
    orgMembers := []
    projects := []
    projectMembers := []
    invites := []
    nextID := 100 }

/-- C6 counterexample: creating an organization succeeds, and the unique
default project it creates is named "全般", not "General". -/
theorem createOrganization_defaultName_counterexample :
    (createOrganization c6db 1 "Acme" "acme" 5).1 =
      Except.ok { id := 100, name := "Acme", slug := "acme"
                  role := "owner", createdAt := 5 } ∧
    ((createOrganization c6db 1 "Acme" "acme" 5).2.projects.filter
      (fun p => p.organizationID == 100)).map (fun p => p.name) = ["全般"] ∧
    ("全般" : String) ≠ "General" :=
  ⟨rfl, rfl, by decide⟩

/-- C6 (amended): a successful `CreateOrganization` by user U yields, in
one transaction, exactly one OrganizationMember(U, O) row with role owner
and exactly one default project of O, public and named "全般" (the code's
Japanese label for the default general project), together with U's
last-organization pointer set to O; on any failing outcome nothing is
persisted. -/
theorem createOrganization_effects (db : DB) (u : Nat) (name slug : String) (now : Nat)
    (hfreshM : ∀ m ∈ db.orgMembers, m.orgID < db.nextID)
    (hfreshP : ∀ p ∈ db.projects, p.organizationID < db.nextID) :
    (∀ resp db', createOrganization db u name slug now = (Except.ok resp, db') →
      resp.id = db.nextID ∧
      db'.orgMembers.filter (fun m => m.orgID == resp.id) =
        [{ userID := u, orgID := resp.id, role := Role.owner }] ∧
      db'.projects.filter (fun p => p.organizationID == resp.id) =
        [{ id := resp.id + 1, name := "全般", organizationID := resp.id
           isPrivate := false, createdAt := now }] ∧
      (∃ usr ∈ db'.users, usr.id = u ∧ usr.lastOrgID = some resp.id)) ∧
    (∀ e db', createOrganization db u name slug now = (Except.error e, db') → db' = db) := by
  constructor
  · intro resp db' h
    unfold createOrganization at h
    split_ifs at h with hval hslug huser
    · exact absurd h (by simp)
    · exact absurd h (by simp)
    · have hfst := congrArg Prod.fst h
      have hsnd := congrArg Prod.snd h
      simp only at hfst hsnd
      have hresp : resp =
          { id := db.nextID, name := name, slug := slug
            role := "owner", createdAt := now } := (Except.ok.inj hfst).symm
      subst hresp
      obtain ⟨x, hx, hxu⟩ := List.any_eq_true.mp huser
      rw [beq_iff_eq] at hxu
      refine ⟨rfl, ?_, ?_, ?_⟩
      · rw [← hsnd]
        rw [List.filter_append]
        have hold : db.orgMembers.filter (fun m => m.orgID == db.nextID) = [] := by
          rw [List.filter_eq_nil_iff]
          intro m hm
          simp [Nat.ne_of_lt (hfreshM m hm)]
        rw [hold]
        simp
      · rw [← hsnd]
        rw [List.filter_append]
        have hold : db.projects.filter (fun p => p.organizationID == db.nextID) = [] := by
          rw [List.filter_eq_nil_iff]
          intro p hp
          simp [Nat.ne_of_lt (hfreshP p hp)]
        rw [hold]
        simp
      · refine ⟨{ x with lastOrgID := some db.nextID }, ?_, hxu, rfl⟩
        rw [← hsnd]
        unfold updateUser
        exact List.mem_map.mpr ⟨x, hx, by simp [hxu]⟩
    · exact absurd h (by simp)
  · intro e db' h
    unfold createOrganization at h
    split_ifs at h
    · exact (congrArg Prod.snd h).symm
    · exact (congrArg Prod.snd h).symm
    · exact absurd h (by simp)
    · exact (congrArg Prod.snd h).symm

/-- Witness for the amended C6 on `c6db`: the created org 100 has exactly
the owner membership of user 1 and exactly the public "全般" project 101,
the creator's pointer moves to org 100, and a rejected call (empty name)
leaves the store untouched. -/
theorem createOrganization_effects_witness :
    (createOrganization c6db 1 "Acme" "acme" 5).2.orgMembers.filter
      (fun m => m.orgID == 100) = [{ userID := 1, orgID := 100, role := Role.owner }] ∧
    (createOrganization c6db 1 "Acme" "acme" 5).2.projects.filter
      (fun p => p.organizationID == 100) =
      [{ id := 101, name := "全般", organizationID := 100
         isPrivate := false, createdAt := 5 }] ∧
    (createOrganization c6db 1 "Acme" "acme" 5).2.users.map (fun x => x.lastOrgID) =
      [some 100] ∧
    (createOrganization c6db 1 "" "acme" 5).2 = c6db := by
  obtain ⟨hid, hmem, hproj, husr⟩ :=
    (createOrganization_effects c6db 1 "Acme" "acme" 5 (by decide) (by decide)).1
      { id := 100, name := "Acme", slug := "acme", role := "owner", createdAt := 5 }
      (createOrganization c6db 1 "Acme" "acme" 5).2 rfl
  refine ⟨hmem, hproj, rfl, ?_⟩
  exact (createOrganization_effects c6db 1 "" "acme" 5 (by decide) (by decide)).2
    (Err.badRequest "validation failed") (createOrganization c6db 1 "" "acme" 5).2 rfl

/-- Concrete store for the C10 witness: user 1 owns org `acme`; the id
allocator stands at 70. -/
def c10db : DB :=
  { users :=
      [{ id := 1, email := "a@example.com", displayName := "A"
         lastOrgID := none, lastProjectID := none }]
    orgs := [{ id := 10, name := "Acme", slug := "acme", createdAt := 0 }]
    orgMembers := [{ userID := 1, orgID := 10, role := Role.owner }]
    projects := []
    projectMembers := []
    invites := []
    nextID := 70 }

/-- C10: a successful private `CreateProject` inserts the creator as an
edit ProjectMember in the same transaction as the project row, so the
creator of a private project retains access under the least-privilege
rule; a successful public `CreateProject` adds no ProjectMember row for
the creator, although the response still reports permission "edit" in
both cases. -/
theorem createProject_creatorMembership (db : DB) (u : Nat)
    (slug name : String) (now : Nat) :
    (∀ resp db', createProject db u slug name true now = (Except.ok resp, db') →
      resp.id = db.nextID ∧ resp.permission = "edit" ∧
      db'.projects = db.projects ++
        [{ id := resp.id, name := name, organizationID := resp.organizationID
           isPrivate := true, createdAt := now }] ∧
      db'.projectMembers = db.projectMembers ++
        [{ userID := u, projectID := resp.id, permission := Permission.edit }] ∧
      isProjectMember db' u resp.id = true) ∧
    (∀ resp db', createProject db u slug name false now = (Except.ok resp, db') →
      resp.permission = "edit" ∧ db'.projectMembers = db.projectMembers) := by
  constructor
  · intro resp db' h
    unfold createProject at h
    by_cases hname : (name == "") = true
    · rw [if_pos hname] at h
      exact absurd h (by simp)
    · rw [if_neg hname] at h
      cases horg : findOrgBySlug db slug with
      | none =>
        simp only [horg] at h
        exact absurd h (by simp)
      | some org =>
        simp only [horg] at h
        cases hmem : findOrgMember db u org.id with
        | none =>
          simp only [hmem] at h
          exact absurd h (by simp)
        | some m =>
          simp only [hmem] at h
          by_cases hadmin : (!HasAdminPermission m.role) = true
          · rw [if_pos hadmin] at h
            exact absurd h (by simp)
          · rw [if_neg hadmin] at h
            by_cases huser : (db.users.any fun x => x.id == u) = true
            · rw [if_pos huser] at h
              have hfst := congrArg Prod.fst h
              have hsnd := congrArg Prod.snd h
              simp only at hfst hsnd
              have hresp : resp =
                  { id := db.nextID, name := name, isPrivate := true
                    organizationID := org.id, permission := "edit"
                    createdAt := now } := (Except.ok.inj hfst).symm
              subst hresp
              refine ⟨rfl, rfl, ?_, ?_, ?_⟩
              · rw [← hsnd]
              · rw [← hsnd]
                rfl
              · rw [← hsnd]
                unfold isProjectMember
                refine List.any_eq_true.mpr
                  ⟨{ userID := u, projectID := db.nextID, permission := Permission.edit },
                   List.mem_append_right _ (List.mem_singleton_self _), by simp⟩
            · rw [if_neg huser] at h
              exact absurd h (by simp)
  · intro resp db' h
    unfold createProject at h
    by_cases hname : (name == "") = true
    · rw [if_pos hname] at h
      exact absurd h (by simp)
    · rw [if_neg hname] at h
      cases horg : findOrgBySlug db slug with
      | none =>
        simp only [horg] at h
        exact absurd h (by simp)
      | some org =>
        simp only [horg] at h
        cases hmem : findOrgMember db u org.id with
        | none =>
          simp only [hmem] at h
          exact absurd h (by simp)
        | some m =>
          simp only [hmem] at h
          by_cases hadmin : (!HasAdminPermission m.role) = true
          · rw [if_pos hadmin] at h
            exact absurd h (by simp)
          · rw [if_neg hadmin] at h
            by_cases huser : (db.users.any fun x => x.id == u) = true
            · rw [if_pos huser] at h
              have hfst := congrArg Prod.fst h
              have hsnd := congrArg Prod.snd h
              simp only at hfst hsnd
              have hresp : resp =
                  { id := db.nextID, name := name, isPrivate := false
                    organizationID := org.id, permission := "edit"
                    createdAt := now } := (Except.ok.inj hfst).symm
              subst hresp
              refine ⟨rfl, ?_⟩
              rw [← hsnd]
              rfl
            · rw [if_neg huser] at h
              exact absurd h (by simp)

/-- Witness for C10 on `c10db`: the private creation installs the creator
edit row for the new project 70; the public creation installs none; both
responses report permission "edit". -/
theorem createProject_creatorMembership_witness :
    (createProject c10db 1 "acme" "Priv" true 7).2.projectMembers =
      [{ userID := 1, projectID := 70, permission := Permission.edit }] ∧
    (createProject c10db 1 "acme" "Priv" true 7).1 =
      Except.ok { id := 70, name := "Priv", isPrivate := true
                  organizationID := 10, permission := "edit", createdAt := 7 } ∧
    (createProject c10db 1 "acme" "Pub" false 7).2.projectMembers = [] ∧
    (createProject c10db 1 "acme" "Pub" false 7).1 =
      Except.ok { id := 70, name := "Pub", isPrivate := false
                  organizationID := 10, permission := "edit", createdAt := 7 } := by
  obtain ⟨hid, hperm, hprojs, hpms, hacc⟩ :=
    (createProject_creatorMembership c10db 1 "acme" "Priv" 7).1
      { id := 70, name := "Priv", isPrivate := true
        organizationID := 10, permission := "edit", createdAt := 7 }
      (createProject c10db 1 "acme" "Priv" true 7).2 rfl
  obtain ⟨hperm2, hpms2⟩ :=
    (createProject_creatorMembership c10db 1 "acme" "Pub" 7).2
      { id := 70, name := "Pub", isPrivate := false
        organizationID := 10, permission := "edit", createdAt := 7 }
      (createProject c10db 1 "acme" "Pub" false 7).2 rfl
  exact ⟨hpms, rfl, hpms2, rfl⟩

/-- A user-table mutation preserves ids, emails and display names. -/
def PreservesIdentity (f : User → User) : Prop :=
  ∀ x, (f x).id = x.id ∧ (f x).email = x.email ∧ (f x).displayName = x.displayName

/-- Frame property on the users table: every row of the new table comes
from the old table with id, email and display name intact, and rows of
users other than `u` are wholly unchanged — so at most the calling user's
last-visited pointer fields can differ. -/
def usersPointerFrame (u : Nat) (old new : List User) : Prop :=
  ∀ usr' ∈ new, ∃ usr ∈ old, usr'.id = usr.id ∧ usr'.email = usr.email ∧
    usr'.displayName = usr.displayName ∧ (usr.id ≠ u → usr' = usr)

/-- An untouched table satisfies the frame. -/
theorem usersPointerFrame_refl (u : Nat) (l : List User) :
    usersPointerFrame u l l :=
  fun usr' h => ⟨usr', h, rfl, rfl, rfl, fun _ => rfl⟩

/-- An identity-preserving update of user `u` satisfies the frame. -/
theorem usersPointerFrame_updateUser (u : Nat) (l : List User) (f : User → User)
    (hf : PreservesIdentity f) : usersPointerFrame u l (updateUser l u f) := by
  intro usr' h
  obtain ⟨x, hx, hxe⟩ := mem_updateUser _ _ _ _ h
  by_cases hid : (x.id == u) = true
  · rw [if_pos hid] at hxe
    rw [beq_iff_eq] at hid
    exact ⟨x, hx, by rw [hxe]; exact (hf x).1, by rw [hxe]; exact (hf x).2.1,
      by rw [hxe]; exact (hf x).2.2, fun hne => absurd hid hne⟩
  · rw [if_neg hid] at hxe
    exact ⟨x, hx, by rw [hxe], by rw [hxe], by rw [hxe], fun _ => hxe⟩

/-- `saveContext` only rewrites the calling user's row, identity-preserving
updates included. -/
theorem saveContext_frame (db : DB) (u : Nat) (f : User → User)
    (hf : PreservesIdentity f) :
    usersPointerFrame u db.users (saveContext db u f).2.users := by
  unfold saveContext
  split
  · exact usersPointerFrame_updateUser u db.users f hf
  · exact usersPointerFrame_refl u db.users

/-- The project branch of `UpdateContext` satisfies the users frame for any
identity-preserving pending mutation. -/
theorem updateContextProject_frame (db : DB) (u : Nat) (pending : User → User)
    (p? : Option Nat) (hp : PreservesIdentity pending) :
    usersPointerFrame u db.users (updateContextProject db u pending p?).2.users := by
  cases p? with
  | none =>
    simp only [updateContextProject]
    exact saveContext_frame db u pending hp
  | some pid =>
    simp only [updateContextProject]
    cases hfind : db.projects.find? (fun p => p.id == pid) with
    | none =>
      simp only [hfind]
      exact usersPointerFrame_refl u db.users
    | some proj =>
      simp only [hfind]
      split
      · exact usersPointerFrame_refl u db.users
      · split
        · exact usersPointerFrame_refl u db.users
        · refine saveContext_frame db u _ ?_
          intro x
          exact ⟨(hp x).1, (hp x).2.1, (hp x).2.2⟩

/-- Concrete store for the C9 results: user 1 (pointers unset) belongs to
org `acme`, which has the public project 20. -/
def c9db : DB :=
  { users :=
      [{ id := 1, email := "a@example.com", displayName := "A"
         lastOrgID := none, lastProjectID := none }]
    orgs := [{ id := 10, name := "Acme", slug := "acme", createdAt := 0 }]
    orgMembers := [{ userID := 1, orgID := 10, role := Role.member }]
    projects :=
      [{ id := 20, name := "General", organizationID := 10, isPrivate := false, createdAt := 0 }]
    projectMembers := []
    invites := []
    nextID := 90 }

/-- C9 counterexample: the read endpoints do change the stored pointers —
fetching org `acme` sets user 1's last-organization, and fetching project
20 sets both last-project and last-organization. -/
theorem lastVisited_readEndpoint_counterexample :
    c9db.users.map (fun x => (x.lastOrgID, x.lastProjectID)) = [(none, none)] ∧
    (getOrganization c9db 1 "acme").1 =
      Except.ok { id := 10, name := "Acme", slug := "acme"
                  role := "member", createdAt := 0 } ∧
    (getOrganization c9db 1 "acme").2.users.map
      (fun x => (x.lastOrgID, x.lastProjectID)) = [(some 10, none)] ∧
    (getProject c9db 1 "acme" 20).2.users.map
      (fun x => (x.lastOrgID, x.lastProjectID)) = [(some 10, some 20)] :=
  ⟨rfl, rfl, rfl, rfl⟩

/-- C9 (amended): the stored last-visited pointers are mutated not only by
the context operations and the documented self-healing clears, but also by
the read endpoints `GetOrganization` and `GetProject` (which record the
fetched entity) and by `CreateOrganization`, `CreateProject` and
`AcceptInvite`; the listing and invite-info endpoints leave the store
untouched, and every operation preserves ids, emails and display names and
touches at most the calling user's row. -/
theorem lastVisited_mutators (db : DB) (u pid now : Nat)
    (slug tok name : String) (priv : Bool) (o? p? : Option Nat) :
    (listOrganizations db u).2 = db ∧
    (listProjects db u slug).2 = db ∧
    (getInviteInfo db tok now).2 = db ∧
    usersPointerFrame u db.users (getOrganization db u slug).2.users ∧
    usersPointerFrame u db.users (getProject db u slug pid).2.users ∧
    usersPointerFrame u db.users (getCurrentContext db u).2.users ∧
    usersPointerFrame u db.users (updateContext db u o? p?).2.users ∧
    usersPointerFrame u db.users (acceptInvite db u tok now).2.users ∧
    usersPointerFrame u db.users (createOrganization db u name slug now).2.users ∧
    usersPointerFrame u db.users (createProject db u slug name priv now).2.users := by
  refine ⟨rfl, ?_, ?_, ?_, ?_, ?_, ?_, ?_, ?_, ?_⟩
  · unfold listProjects
    split
    · rfl
    · split
      · rfl
      · rfl
  · unfold getInviteInfo
    split
    · rfl
    · split
      · rfl
      · rfl
  · unfold getOrganization
    split
    · exact usersPointerFrame_refl u db.users
    · split
      · exact usersPointerFrame_refl u db.users
      · exact usersPointerFrame_updateUser u db.users _ (fun x => ⟨rfl, rfl, rfl⟩)
  · unfold getProject
    split
    · exact usersPointerFrame_refl u db.users
    · split
      · exact usersPointerFrame_refl u db.users
      · split
        · exact usersPointerFrame_refl u db.users
        · split
          · split
            · exact usersPointerFrame_refl u db.users
            · exact usersPointerFrame_updateUser u db.users _ (fun x => ⟨rfl, rfl, rfl⟩)
          · exact usersPointerFrame_updateUser u db.users _ (fun x => ⟨rfl, rfl, rfl⟩)
  · unfold getCurrentContext
    dsimp only
    split
    · exact usersPointerFrame_refl u db.users
    · split
      · split
        · exact usersPointerFrame_refl u db.users
        · split
          · exact usersPointerFrame_refl u db.users
          · exact usersPointerFrame_refl u db.users
      · split
        · exact usersPointerFrame_updateUser u db.users _ (fun x => ⟨rfl, rfl, rfl⟩)
        · split
          · exact usersPointerFrame_updateUser u db.users _ (fun x => ⟨rfl, rfl, rfl⟩)
          · split
            · exact usersPointerFrame_refl u db.users
            · split
              · exact usersPointerFrame_refl u db.users
              · split <;> (try split) <;> exact usersPointerFrame_refl u db.users
  · unfold updateContext
    split
    · split
      · exact usersPointerFrame_refl u db.users
      · exact updateContextProject_frame db u _ p? (fun x => ⟨rfl, rfl, rfl⟩)
    · exact updateContextProject_frame db u id p? (fun x => ⟨rfl, rfl, rfl⟩)
  · unfold acceptInvite
    dsimp only
    split
    · exact usersPointerFrame_refl u db.users
    · split
      · exact usersPointerFrame_refl u db.users
      · split
        · exact usersPointerFrame_refl u db.users
        · split
          · exact usersPointerFrame_updateUser u db.users _ (fun x => ⟨rfl, rfl, rfl⟩)
          · exact usersPointerFrame_refl u db.users
  · unfold createOrganization
    dsimp only
    split
    · exact usersPointerFrame_refl u db.users
    · split
      · exact usersPointerFrame_refl u db.users
      · split
        · exact usersPointerFrame_updateUser u db.users _ (fun x => ⟨rfl, rfl, rfl⟩)
        · exact usersPointerFrame_refl u db.users
  · unfold createProject
    dsimp only
    split
    · exact usersPointerFrame_refl u db.users
    · split
      · exact usersPointerFrame_refl u db.users
      · split
        · exact usersPointerFrame_refl u db.users
        · split
          · exact usersPointerFrame_refl u db.users
          · split
            · exact usersPointerFrame_updateUser u db.users _ (fun x => ⟨rfl, rfl, rfl⟩)
            · exact usersPointerFrame_refl u db.users

/-- Witness for the amended C9 on `c9db`: the pure read endpoints return
the store unchanged. -/
theorem lastVisited_mutators_witness :
    (listOrganizations c9db 1).2 = c9db ∧
    (listProjects c9db 1 "acme").2 = c9db ∧
    (getInviteInfo c9db "t" 0).2 = c9db := by
  obtain ⟨h1, h2, h3, _, _, _, _, _, _, _⟩ :=
    lastVisited_mutators c9db 1 20 0 "acme" "t" "X" true none none
  exact ⟨h1, h2, h3⟩

/-- Classifies a handler outcome as a Forbidden failure. -/
def isForbiddenOutcome {A : Type} : Except Err A → Bool
  | .error (.forbidden _) => true
  | _ => false

/-- Concrete store for the C8 witness: user 1 belongs to org `acme`, which
has a private project 30 (no explicit rows) and a public project 31. -/
def c8db : DB :=
  { users :=
      [{ id := 1, email := "a@example.com", displayName := "A"
         lastOrgID := none, lastProjectID := none }]
    orgs := [{ id := 10, name := "Acme", slug := "acme", createdAt := 0 }]
    orgMembers := [{ userID := 1, orgID := 10, role := Role.member }]
    projects :=
      [{ id := 30, name := "Secret", organizationID := 10, isPrivate := true, createdAt := 0 },
       { id := 31, name := "Open", organizationID := 10, isPrivate := false, createdAt := 1 }]
    projectMembers := []
    invites := []
    nextID := 50 }

/-- C8: `UpdateContext` with a private project the user has no
ProjectMember row for fails with Forbidden and leaves the stored context
untouched; a successful call carrying a project reference persists both
the last-project pointer and, implicitly, the project's parent
organization as the last-organization. -/
theorem updateContext_spec (db : DB) (u pid : Nat) :
    (∀ proj, db.projects.find? (fun p => p.id == pid) = some proj →
      proj.isPrivate = true →
      isProjectMember db u pid = false →
      isForbiddenOutcome (updateContext db u none (some pid)).1 = true ∧
        (updateContext db u none (some pid)).2 = db) ∧
    (∀ orgID? r db', updateContext db u orgID? (some pid) = (Except.ok r, db') →
      ∃ proj, db.projects.find? (fun p => p.id == pid) = some proj ∧
        (∃ usr ∈ db'.users, usr.id = u ∧ usr.lastProjectID = some pid ∧
          usr.lastOrgID = some proj.organizationID)) := by
  constructor
  · intro proj hproj hpriv hnopm
    cases hom : isOrgMember db u proj.organizationID with
    | false =>
      constructor <;>
        simp [updateContext, updateContextProject, hproj, hom, isForbiddenOutcome]
    | true =>
      constructor <;>
        simp [updateContext, updateContextProject, hproj, hom, hpriv, hnopm,
          isForbiddenOutcome]
  · intro orgID? r db' h
    obtain ⟨pending, hpres, h⟩ :
        ∃ pending : User → User, (∀ x, (pending x).id = x.id) ∧
          updateContextProject db u pending (some pid) = (Except.ok r, db') := by
      cases orgID? with
      | none => exact ⟨id, fun x => rfl, h⟩
      | some orgID =>
        simp only [updateContext] at h
        split_ifs at h
        · exact absurd h (by simp)
        · exact ⟨_, fun x => rfl, h⟩
    simp only [updateContextProject] at h
    cases hfind : db.projects.find? (fun p => p.id == pid) with
    | none =>
      simp only [hfind] at h
      exact absurd h (by simp)
    | some proj =>
      simp only [hfind] at h
      refine ⟨proj, rfl, ?_⟩
      split_ifs at h
      · exact absurd h (by simp)
      · exact absurd h (by simp)
      · unfold saveContext at h
        split_ifs at h with hany
        · have hdb' : db' =
              { db with users := (updateUser db.users u (fun x =>
                  { (pending x) with
                    lastProjectID := some pid
                    lastOrgID := some proj.organizationID })) } := by
            have hsnd := congrArg Prod.snd h
            exact hsnd.symm
          obtain ⟨x, hx, hxu⟩ := List.any_eq_true.mp hany
          rw [beq_iff_eq] at hxu
          refine ⟨{ (pending x) with
                    lastProjectID := some pid
                    lastOrgID := some proj.organizationID }, ?_, ?_, rfl, rfl⟩
          · rw [hdb']
            exact List.mem_map.mpr ⟨x, hx, by simp [hxu]⟩
          · exact hpres x ▸ hxu
        · exact absurd h (by simp)

/-- Witness for C8 on `c8db`: pointing the context at private project 30
is forbidden and persists nothing; pointing it at public project 31 also
records org 10 as the last organization. -/
theorem updateContext_spec_witness :
    isForbiddenOutcome (updateContext c8db 1 none (some 30)).1 = true ∧
    (updateContext c8db 1 none (some 30)).2 = c8db ∧
    ((updateContext c8db 1 none (some 31)).2.users.find? (fun x => x.id == 1)).map
      (fun x => (x.lastOrgID, x.lastProjectID)) = some (some 10, some 31) := by
  obtain ⟨hforb, hsame⟩ :=
    (updateContext_spec c8db 1 30).1 ⟨30, "Secret", 10, true, 0⟩ rfl rfl rfl
  exact ⟨hforb, hsame, rfl⟩

/-- Concrete store for the C1 witness: org `acme` with an owner (user 1,
no explicit project rows) and a member (user 2, explicit edit rows), a
public project 20 and a private project 21. -/
def c1db : DB :=
  { users :=
      [{ id := 1, email := "owner@example.com", displayName := "Owner"
         lastOrgID := none, lastProjectID := none },
       { id := 2, email := "member@example.com", displayName := "Member"
         lastOrgID := none, lastProjectID := none }]
    orgs := [{ id := 10, name := "Acme", slug := "acme", createdAt := 0 }]
    orgMembers := [{ userID := 1, orgID := 10, role := Role.owner },
                   { userID := 2, orgID := 10, role := Role.member }]
    projects :=
      [{ id := 20, name := "General", organizationID := 10, isPrivate := false, createdAt := 0 },
       { id := 21, name := "Secret", organizationID := 10, isPrivate := true, createdAt := 1 }]
    projectMembers := [{ userID := 2, projectID := 21, permission := Permission.edit },
                       { userID := 2, projectID := 20, permission := Permission.edit }]
    invites := []
    nextID := 100 }

/-- Witness for C1 on `c1db`: the org owner (user 1) without an explicit
row is forbidden on private project 21 and resolves to view on public
project 20; user 2's explicit edit row grants edit on the private project,
which is also listed for user 2 with edit. -/
theorem resolveProjectPermission_spec_witness :
    (getProject c1db 1 "acme" 21).1 =
      Except.error (Err.forbidden "you do not have access to this project") ∧
    (getProject c1db 2 "acme" 21).1 =
      Except.ok { id := 21, name := "Secret", isPrivate := true, organizationID := 10
                  permission := "edit", createdAt := 1 } ∧
    (getProject c1db 1 "acme" 20).1 =
      Except.ok { id := 20, name := "General", isPrivate := false, organizationID := 10
                  permission := "view", createdAt := 0 } ∧
    ((listProjects c1db 2 "acme").1.toOption.getD []).any
      (fun r => r.id == 21 && r.permission == "edit") = true := by
  refine ⟨?_, ?_, ?_, ?_⟩
  · exact (resolveProjectPermission_spec c1db 1 "acme" ⟨10, "Acme", "acme", 0⟩
      ⟨1, 10, Role.owner⟩ ⟨21, "Secret", 10, true, 1⟩ rfl rfl rfl
      (by decide) (by decide)).1 rfl rfl
  · exact (resolveProjectPermission_spec c1db 2 "acme" ⟨10, "Acme", "acme", 0⟩
      ⟨2, 10, Role.member⟩ ⟨21, "Secret", 10, true, 1⟩ rfl rfl rfl
      (by decide) (by decide)).2.1 rfl ⟨2, 21, Permission.edit⟩ rfl
  · exact (resolveProjectPermission_spec c1db 1 "acme" ⟨10, "Acme", "acme", 0⟩
      ⟨1, 10, Role.owner⟩ ⟨20, "General", 10, false, 0⟩ rfl rfl rfl
      (by decide) (by decide)).2.2.1 rfl
  · obtain ⟨r, hrmem, hrid, hrperm⟩ :=
      (resolveProjectPermission_spec c1db 2 "acme" ⟨10, "Acme", "acme", 0⟩
        ⟨2, 10, Role.member⟩ ⟨21, "Secret", 10, true, 1⟩ rfl rfl rfl
        (by decide) (by decide)).2.2.2.2 rfl ⟨2, 21, Permission.edit⟩ rfl
        [⟨20, "General", false, 10, "edit", 0⟩, ⟨21, "Secret", true, 10, "edit", 1⟩] rfl
    exact List.any_eq_true.mpr ⟨r, hrmem, by simp [hrid, hrperm, permString]⟩

/-- C7: for every (userID, email, displayName), validating the access token
produced by issuing a token pair for those values returns claims with the
same userID, email and displayName as long as the configured 15-minute
access expiry has not elapsed; once it has elapsed, validation fails with
the Expired error. -/
theorem accessToken_roundTrip (secret : String) (uid : Nat)
    (email displayName : String) (issuedAt now : Nat) (hord : issuedAt ≤ now) :
    (now < issuedAt + Auth.accessExpirySeconds →
      Auth.validateAccessToken secret
        (Auth.generateTokenPair secret uid email displayName issuedAt).accessToken now =
        Except.ok
          { userID := uid, email := email, displayName := displayName
            expiresAt := issuedAt + Auth.accessExpirySeconds
            issuedAt := issuedAt, notBefore := issuedAt
            issuer := "team-todo", subject := uid }) ∧
    (issuedAt + Auth.accessExpirySeconds ≤ now →
      Auth.validateAccessToken secret
        (Auth.generateTokenPair secret uid email displayName issuedAt).accessToken now =
        Except.error Auth.TokenErr.expired) := by
  constructor <;> intro h <;>
    simp only [Auth.accessExpirySeconds] at h <;>
    simp only [Auth.validateAccessToken, Auth.generateTokenPair,
      Auth.generateAccessToken, Auth.accessExpirySeconds] <;>
    split_ifs <;>
    first | rfl | (exfalso; omega) | (exfalso; simp_all)

/-- Witness for C7: at issuance time 0, validation at 10 seconds succeeds
with the issued identity and validation at 900 seconds reports expiry. -/
theorem accessToken_roundTrip_witness :
    Auth.validateAccessToken "k"
      (Auth.generateTokenPair "k" 7 "ann@example.com" "Ann" 0).accessToken 10 =
      Except.ok { userID := 7, email := "ann@example.com", displayName := "Ann"
                  expiresAt := 900, issuedAt := 0, notBefore := 0
                  issuer := "team-todo", subject := 7 } ∧
    Auth.validateAccessToken "k"
      (Auth.generateTokenPair "k" 7 "ann@example.com" "Ann" 0).accessToken 900 =
      Except.error Auth.TokenErr.expired :=
  ⟨(accessToken_roundTrip "k" 7 "ann@example.com" "Ann" 0 10 (by decide)).1 (by decide),
   (accessToken_roundTrip "k" 7 "ann@example.com" "Ann" 0 900 (by decide)).2 (by decide)⟩

end TeamTodo
